import Mathlib

/-!
Shallow embedding of the sentiment-analysis tool.

`src/sentiment.py` is modelled by: string helpers mirroring the Python
string operations used there, the lexicon (VADER) fallback thresholds,
label normalization, the lazily resolved analyzer-selection state, single
text analysis and batch analysis.  `src/csv_utils.py` is modelled by a
simple column-oriented dataframe, text-column detection and the
sentiment transform.  The two external scorers (the pretrained pipeline
and the VADER lexicon) are parameters of the embedding: a pipeline is a
function from a text to a list of (label, score) pairs, and the lexicon
is a function from a text to its compound polarity score.  Numbers are
exact rationals.
-/

/-- Python `str.lower()` (character-wise lowering). -/
def pyLower (s : String) : String := ⟨s.data.map Char.toLower⟩

/-- Python `str.strip()`: drop leading and trailing whitespace. -/
def pyStrip (s : String) : String :=
  ⟨((s.data.dropWhile Char.isWhitespace).reverse.dropWhile Char.isWhitespace).reverse⟩

/-- Python slicing `s[:n]`. -/
def pyTake (n : Nat) (s : String) : String := ⟨s.data.take n⟩

/-- Whether `needle` starts the list `hay` (character-wise). -/
def leadsList : List Char → List Char → Bool
  | [], _ => true
  | _ :: _, [] => false
  | a :: as, b :: bs => a = b && leadsList as bs

/-- Whether `needle` occurs as a contiguous run inside `hay`. -/
def containsRun (needle : List Char) : List Char → Bool
  | [] => needle.isEmpty
  | c :: rest => leadsList needle (c :: rest) || containsRun needle rest

/-- Python `needle in hay` on strings (substring test). -/
def substr (needle hay : String) : Bool := containsRun needle.data hay.data

/-- Round a rational to the nearest integer, ties to even
(the rounding Python `round` performs on exact halves). -/
def roundHalfEven (x : ℚ) : ℤ :=
  if x - ⌊x⌋ < 1 / 2 then ⌊x⌋
  else if 1 / 2 < x - ⌊x⌋ then ⌊x⌋ + 1
  else if ⌊x⌋ % 2 = 0 then ⌊x⌋ else ⌊x⌋ + 1

/-- Python `round(x, 4)` on exact rationals. -/
def round4 (x : ℚ) : ℚ := (roundHalfEven (x * 10000) : ℚ) / 10000

/-- Function `_normalize_label` from `src/sentiment.py`: map model labels to
positive, neutral, negative. -/
def normalize_label (label : String) : String :=
  if pyLower label = "positive" ∨ pyLower label = "pos" then "positive"
  else if pyLower label = "negative" ∨ pyLower label = "neg" then "negative"
  else "neutral"

/-- The threshold mapping of `_analyze_vader` in `src/sentiment.py`,
as a function of the compound polarity score. -/
def vader_thresholds (compound : ℚ) : String × ℚ :=
  if 5 / 100 ≤ compound then ("positive", round4 (min 1 (1 / 2 + compound / 2)))
  else if compound ≤ -(5 / 100) then ("negative", round4 (min 1 (1 / 2 + |compound| / 2)))
  else ("neutral", round4 (1 / 2 + (1 / 2 - |compound|)))

/-- Function `_analyze_vader` from `src/sentiment.py`: the lexicon scorer is the
parameter `compoundOf`; the text is stripped and truncated to 512
characters before being scored. -/
def analyze_vader (compoundOf : String → ℚ) (text : String) : String × ℚ :=
  vader_thresholds (compoundOf (pyTake 512 (pyStrip text)))

example : pyStrip "   " = "" := by decide
example : pyStrip " ab " = "ab" := by decide
example : substr "ext" "text" = true := by decide
example : substr "text" "ext" = false := by decide
example : substr "" "x" = true := by decide
example : normalize_label "POS" = "positive" := by decide

/-- A pretrained pipeline, modelled at its boundary: a text is mapped to
a list of (label, score) pairs, one per class. -/
def Pipe : Type := String → List (String × ℚ)

/-- The module-level state of `src/sentiment.py`: the globals
`_pipeline` and `_use_vader` (both start as `None`). -/
structure ServiceState where
  pipeline : Option Pipe
  useVader : Option Bool

/-- The initial module state (`_pipeline = None`, `_use_vader = None`). -/
def initState : ServiceState := ⟨none, none⟩

/-- The external world the sentiment module runs against: the outcome of
attempting to load the transformer pipeline (`none` models a load
failure) and the VADER lexicon's compound score for a text. -/
structure Env where
  load : Option Pipe
  compoundOf : String → ℚ

/-- Function `_get_pipeline` from `src/sentiment.py`, as a state transition:
returns the pipeline to use (or `none` for the VADER fallback) together
with the updated module state. -/
def get_pipeline (load : Option Pipe) (s : ServiceState) : Option Pipe × ServiceState :=
  if s.useVader = some false ∧ s.pipeline.isSome then (s.pipeline, s)
  else if s.useVader = some true then (none, s)
  else
    match load with
    | some p => (some p, ⟨some p, some false⟩)
    | none => (none, ⟨s.pipeline, some true⟩)

/-- The dict comprehension `{r["label"].lower(): r["score"] for r in result}`:
a later pair with an equal (lowered) label overwrites the stored score,
keeping the key's first position. -/
def dictInsert (k : String) (v : ℚ) (d : List (String × ℚ)) : List (String × ℚ) :=
  if d.any (fun p => p.1 = k) then d.map (fun p => if p.1 = k then (k, v) else p)
  else d ++ [(k, v)]

/-- Build the `by_label` dict from the pipeline result. -/
def buildByLabel (result : List (String × ℚ)) : List (String × ℚ) :=
  result.foldl (fun d r => dictInsert (pyLower r.1) r.2 d) []

/-- Python `max(by_label, key=by_label.get)` together with the looked-up
score: the first entry with the maximal score (ties keep the earlier
entry).  `none` models the `ValueError` on an empty dict. -/
def argmaxFirst (d : List (String × ℚ)) : Option (String × ℚ) :=
  d.foldl (fun acc p =>
    match acc with
    | none => some p
    | some q => if q.2 < p.2 then some p else some q) none

/-- Function `analyze_text` from `src/sentiment.py`.  The first component is the
returned (label, confidence) pair, or `none` when the Python code would
raise (pipeline output on which the argmax is undefined); the second is
the updated module state.  The pipeline output is modelled as a list of
(label, score) pairs; the Python branch for a single dict result is the
one-element-list case of the same computation. -/
def analyze_text (env : Env) (text : String) (s : ServiceState) :
    Option (String × ℚ) × ServiceState :=
  if pyStrip text = "" then (some ("neutral", 0), s)
  else
    let ps := get_pipeline env.load s
    match ps.1 with
    | none => (some (analyze_vader env.compoundOf text), ps.2)
    | some pipe =>
      match argmaxFirst (buildByLabel (pipe (pyTake 512 (pyStrip text)))) with
      | none => (none, ps.2)
      | some lr => (some (normalize_label lr.1, round4 lr.2), ps.2)

/-- Function `analyze_batch` from `src/sentiment.py`: the list comprehension
`[analyze_text(t) for t in texts]`, threading the module state; a raise
in one element aborts the whole batch. -/
def analyze_batch (env : Env) : List String → ServiceState →
    Option (List (String × ℚ)) × ServiceState
  | [], s => (some [], s)
  | t :: ts, s =>
    match analyze_text env t s with
    | (none, s') => (none, s')
    | (some r, s') =>
      match analyze_batch env ts s' with
      | (none, s'') => (none, s'')
      | (some rs, s'') => (some (r :: rs), s'')

/-- A dataframe cell: missing (`NaN`), a string, or a number. -/
inductive Cell where
  | na : Cell
  | str : String → Cell
  | num : ℚ → Cell
deriving DecidableEq

/-- A dataframe column: its name, whether its dtype is `object`, and its
cells in row order. -/
structure Column where
  name : String
  isObjectDtype : Bool
  cells : List Cell
deriving DecidableEq

/-- A pandas dataframe, modelled column-wise. -/
structure DataFrame where
  columns : List Column
deriving DecidableEq

/-- Python `str()` of a cell as produced by `astype(str)` (a missing
value stringifies to `"nan"`). -/
def cellStr (c : Cell) : String :=
  match c with
  | .na => "nan"
  | .str s => s
  | .num q => toString q

/-- A cell after `fillna("").astype(str)`. -/
def cellFillEmpty (c : Cell) : String :=
  match c with
  | .na => ""
  | .str s => s
  | .num q => toString q

/-- Insert into a sorted list of naturals. -/
def insertSorted (x : ℕ) : List ℕ → List ℕ
  | [] => [x]
  | y :: ys => if x ≤ y then x :: y :: ys else y :: insertSorted x ys

/-- Sort a list of naturals. -/
def sortNat (xs : List ℕ) : List ℕ := xs.foldr insertSorted []

/-- The pandas median of a list of naturals (`none` models the `NaN`
median of an empty series; any comparison with `NaN` is false). -/
def medianQ (xs : List ℕ) : Option ℚ :=
  let s := sortNat xs
  let n := s.length
  if n = 0 then none
  else if n % 2 = 1 then some ((s.getD (n / 2) 0 : ℕ) : ℚ)
  else some ((((s.getD (n / 2 - 1) 0 : ℕ) : ℚ) + ((s.getD (n / 2) 0 : ℕ) : ℚ)) / 2)

/-- The test `df[col].astype(str).str.len().median() > 20` for a column. -/
def colMedianOver20 (col : Column) : Bool :=
  match medianQ (col.cells.map (fun c => (cellStr c).length)) with
  | some m => decide (20 < m)
  | none => false

/-- Constant `TEXT_CANDIDATES` from `src/csv_utils.py`. -/
def TEXT_CANDIDATES : List String :=
  ["review", "reviews", "text", "content", "comment", "comments",
   "feedback", "message", "body", "description", "review_text", "customer_review"]

/-- Function `detect_text_column` from `src/csv_utils.py`.  `cols_lower` is the
list of lowered and stripped column names; the Python loop
`for i, col in enumerate(cols_lower): ... return df.columns[i]` is the
search over the zip of the original names with that list. -/
def detect_text_column (df : DataFrame) : Option String :=
  match TEXT_CANDIDATES.findSome? (fun cand =>
      (((df.columns.map (fun c => c.name)).zip
          ((df.columns.map (fun c => c.name)).map (fun c => pyStrip (pyLower c)))).find?
        (fun nc => substr cand nc.2 || substr nc.2 cand)).map (fun nc => nc.1)) with
  | some n => some n
  | none =>
    if (df.columns.map (fun c => c.name)).length = 1 then
      (df.columns.map (fun c => c.name)).head?
    else (df.columns.find? (fun col => col.isObjectDtype && colMedianOver20 col)).map
      (fun c => c.name)

/-- Assignment `out[name] = values` in pandas: replace the column in place when the
name exists, otherwise append it. -/
def set_column (df : DataFrame) (c : Column) : DataFrame :=
  if df.columns.any (fun col => col.name = c.name) then
    ⟨df.columns.map (fun col => if col.name = c.name then c else col)⟩
  else ⟨df.columns ++ [c]⟩

/-- Function `run_sentiment_on_df` from `src/csv_utils.py`: look up the chosen
text column (`none` models the `KeyError` when it is absent), analyze
the `fillna("").astype(str)` texts, and assign the `sentiment` and
`sentiment_confidence` columns on a copy. -/
def run_sentiment_on_df (env : Env) (df : DataFrame) (text_column : String)
    (s : ServiceState) : Option DataFrame × ServiceState :=
  match df.columns.find? (fun col => col.name = text_column) with
  | none => (none, s)
  | some col =>
    match analyze_batch env (col.cells.map cellFillEmpty) s with
    | (none, s') => (none, s')
    | (some results, s') =>
      (some (set_column
        (set_column df ⟨"sentiment", true, results.map (fun r => Cell.str r.1)⟩)
        ⟨"sentiment_confidence", false, results.map (fun r => Cell.num r.2)⟩), s')

/-- Column detection as the claim words it: a candidate is compared
against the lowercased column name (no whitespace stripping). -/
def detect_text_column_claim (df : DataFrame) : Option String :=
  match TEXT_CANDIDATES.findSome? (fun cand =>
      df.columns.find? (fun col =>
        substr cand (pyLower col.name) || substr (pyLower col.name) cand)) with
  | some col => some col.name
  | none =>
    if df.columns.length = 1 then (df.columns.head?).map (fun c => c.name)
    else (df.columns.find? (fun col => col.isObjectDtype && colMedianOver20 col)).map
      (fun c => c.name)

/-- Column detection as the claim words it, amended: a candidate is
compared against the lowercased and whitespace-stripped column name. -/
def detect_text_column_spec (df : DataFrame) : Option String :=
  match TEXT_CANDIDATES.findSome? (fun cand =>
      df.columns.find? (fun col =>
        substr cand (pyStrip (pyLower col.name)) ||
          substr (pyStrip (pyLower col.name)) cand)) with
  | some col => some col.name
  | none =>
    if df.columns.length = 1 then (df.columns.head?).map (fun c => c.name)
    else (df.columns.find? (fun col => col.isObjectDtype && colMedianOver20 col)).map
      (fun c => c.name)

/-- A concrete environment in which the pipeline fails to load and the
lexicon scores everything 0. -/
def env0 : Env := ⟨none, fun _ => 0⟩

/-- Contract of a loaded pipeline (the external model): it returns a
nonempty list of class scores, each score in [0, 1]. -/
def PipeWF (p : Pipe) : Prop :=
  ∀ t, p t ≠ [] ∧ ∀ r ∈ p t, 0 ≤ r.2 ∧ r.2 ≤ 1

/-- Contract of the environment: the lexicon's compound score lies in
[-1, 1] and a successfully loaded pipeline satisfies its contract. -/
def EnvWF (env : Env) : Prop :=
  (∀ t, -1 ≤ env.compoundOf t ∧ env.compoundOf t ≤ 1) ∧
  ∀ p, env.load = some p → PipeWF p

/-- Contract of a module state: a cached pipeline satisfies its
contract. -/
def StateWF (s : ServiceState) : Prop :=
  ∀ p, s.pipeline = some p → PipeWF p

lemma env0_wf : EnvWF env0 :=
  ⟨fun _ => ⟨by norm_num [env0], by norm_num [env0]⟩, fun p h => by simp [env0] at h⟩

lemma initState_wf : StateWF initState := fun p h => by simp [initState] at h

/-! ### Rounding lemmas -/

lemma roundHalfEven_lb (x : ℚ) : x - 1 / 2 ≤ (roundHalfEven x : ℚ) := by
  have hfl : (⌊x⌋ : ℚ) ≤ x := Int.floor_le x
  have hfu : x < (⌊x⌋ : ℚ) + 1 := Int.lt_floor_add_one x
  unfold roundHalfEven
  split_ifs <;> push_cast <;> linarith

lemma roundHalfEven_ub (x : ℚ) : (roundHalfEven x : ℚ) ≤ x + 1 / 2 := by
  have hfl : (⌊x⌋ : ℚ) ≤ x := Int.floor_le x
  have hfu : x < (⌊x⌋ : ℚ) + 1 := Int.lt_floor_add_one x
  unfold roundHalfEven
  split_ifs with h1 h2 <;> push_cast <;> linarith

lemma round4_ge (a : ℤ) (x : ℚ) (h : (a : ℚ) / 10000 ≤ x) :
    (a : ℚ) / 10000 ≤ round4 x := by
  have hax : (a : ℚ) ≤ x * 10000 := by
    rw [div_le_iff₀ (by norm_num : (0:ℚ) < 10000)] at h
    exact h
  have hlb := roundHalfEven_lb (x * 10000)
  have : (a : ℚ) < (roundHalfEven (x * 10000) : ℚ) + 1 := by linarith
  have hint : a < roundHalfEven (x * 10000) + 1 := by exact_mod_cast this
  have : a ≤ roundHalfEven (x * 10000) := by omega
  unfold round4
  gcongr

lemma round4_le (a : ℤ) (x : ℚ) (h : x ≤ (a : ℚ) / 10000) :
    round4 x ≤ (a : ℚ) / 10000 := by
  have hax : x * 10000 ≤ (a : ℚ) := by
    rw [le_div_iff₀ (by norm_num : (0:ℚ) < 10000)] at h
    exact h
  have hub := roundHalfEven_ub (x * 10000)
  have : (roundHalfEven (x * 10000) : ℚ) < (a : ℚ) + 1 := by linarith
  have hint : roundHalfEven (x * 10000) < a + 1 := by exact_mod_cast this
  have : roundHalfEven (x * 10000) ≤ a := by omega
  unfold round4
  gcongr

lemma round4_nonneg {x : ℚ} (h : 0 ≤ x) : 0 ≤ round4 x := by
  have := round4_ge 0 x (by simpa using h)
  simpa using this

lemma round4_le_one {x : ℚ} (h : x ≤ 1) : round4 x ≤ 1 := by
  have := round4_le 10000 x (by norm_num [h])
  linarith [this]

lemma round4_floor_eval (x : ℚ) (n : ℤ) (h1 : (n : ℚ) ≤ x * 10000)
    (h2 : x * 10000 < (n : ℚ) + 1 / 2) : round4 x = (n : ℚ) / 10000 := by
  have hfl : ⌊x * 10000⌋ = n := Int.floor_eq_iff.mpr ⟨h1, by push_cast; linarith⟩
  unfold round4 roundHalfEven
  rw [hfl, if_pos (by push_cast; linarith)]

lemma vader_at_zero : vader_thresholds 0 = ("neutral", 1) := by
  unfold vader_thresholds
  rw [if_neg (by norm_num), if_neg (by norm_num)]
  have h : (1 / 2 + (1 / 2 - |(0 : ℚ)|)) = 1 := by
    rw [abs_zero]
    norm_num
  rw [h, round4_floor_eval 1 10000 (by norm_num) (by norm_num)]
  norm_num

lemma vader_at_pos_threshold : vader_thresholds (5 / 100) = ("positive", 21 / 40) := by
  unfold vader_thresholds
  rw [if_pos (by norm_num)]
  have hmin : min (1 : ℚ) (1 / 2 + (5 / 100) / 2) = 21 / 40 := by
    rw [min_eq_right (by norm_num)]
    norm_num
  rw [hmin, round4_floor_eval (21 / 40) 5250 (by norm_num) (by norm_num)]
  norm_num

lemma vader_at_neg_threshold : vader_thresholds (-(5 / 100)) = ("negative", 21 / 40) := by
  unfold vader_thresholds
  rw [if_neg (by norm_num), if_pos (by norm_num)]
  have habs : |(-(5 / 100) : ℚ)| = 5 / 100 := by
    rw [abs_neg]
    exact abs_of_nonneg (by norm_num)
  rw [habs]
  have hmin : min (1 : ℚ) (1 / 2 + (5 / 100) / 2) = 21 / 40 := by
    rw [min_eq_right (by norm_num)]
    norm_num
  rw [hmin, round4_floor_eval (21 / 40) 5250 (by norm_num) (by norm_num)]
  norm_num

lemma vader_at_c10 : vader_thresholds (9999 / 200000) = ("neutral", 19 / 20) := by
  unfold vader_thresholds
  rw [if_neg (by norm_num), if_neg (by norm_num)]
  have habs : |(9999 / 200000 : ℚ)| = 9999 / 200000 := abs_of_nonneg (by norm_num)
  rw [habs]
  have harg : (1 / 2 + (1 / 2 - (9999 / 200000 : ℚ))) = 190001 / 200000 := by norm_num
  rw [harg, round4_floor_eval (190001 / 200000) 9500 (by norm_num) (by norm_num)]
  norm_num

/-! ### Lexicon analyzer lemmas -/

lemma vader_label_mem (c : ℚ) :
    (vader_thresholds c).1 ∈ (["positive", "neutral", "negative"] : List String) := by
  unfold vader_thresholds
  split_ifs <;> simp

lemma vader_conf_bounds (c : ℚ) :
    0 ≤ (vader_thresholds c).2 ∧ (vader_thresholds c).2 ≤ 1 := by
  have habs : 0 ≤ |c| := abs_nonneg c
  unfold vader_thresholds
  split_ifs with h1 h2
  · exact ⟨round4_nonneg (le_min (by norm_num) (by linarith)), round4_le_one (min_le_left _ _)⟩
  · exact ⟨round4_nonneg (le_min (by norm_num) (by linarith)), round4_le_one (min_le_left _ _)⟩
  · have hlt : |c| < 5 / 100 := abs_lt.mpr ⟨by linarith, by linarith⟩
    exact ⟨round4_nonneg (by linarith), round4_le_one (by linarith)⟩

lemma normalize_label_mem (l : String) :
    normalize_label l ∈ (["positive", "neutral", "negative"] : List String) := by
  unfold normalize_label
  split_ifs <;> simp

/-! ### Analyzer-selection state machine lemmas -/

lemma get_pipeline_stable (load : Option Pipe) (s : ServiceState) :
    get_pipeline load ((get_pipeline load s).2) =
      ((get_pipeline load s).1, (get_pipeline load s).2) := by
  rcases s with ⟨p, v⟩
  rcases v with _ | b
  · rcases load with _ | q <;> simp [get_pipeline]
  · cases b
    · rcases p with _ | q
      · rcases load with _ | q' <;> simp [get_pipeline]
      · simp [get_pipeline]
    · simp [get_pipeline]

lemma analyze_state (env : Env) (t : String) (s : ServiceState) (h : pyStrip t ≠ "") :
    (analyze_text env t s).2 = (get_pipeline env.load s).2 := by
  simp only [analyze_text, if_neg h]
  rcases hm : (get_pipeline env.load s).1 with _ | pipe
  · rfl
  · split <;> first | rfl | (split <;> rfl)

lemma analyze_out_stable (env : Env) (t t' : String) (s : ServiceState) :
    (analyze_text env t' ((analyze_text env t s).2)).1 = (analyze_text env t' s).1 := by
  by_cases h : pyStrip t = ""
  · simp [analyze_text, h]
  · rw [analyze_state env t s h]
    by_cases h' : pyStrip t' = ""
    · simp [analyze_text, h']
    · have h1 : (get_pipeline env.load ((get_pipeline env.load s).2)).1 =
          (get_pipeline env.load s).1 := by rw [get_pipeline_stable]
      simp only [analyze_text, if_neg h']
      rw [h1]
      rcases (get_pipeline env.load s).1 with _ | pipe
      · rfl
      · split <;> first | rfl | (split <;> rfl)

/-! ### Batch lemmas -/

/-- Sequence a list of optional results, failing at the first `none`. -/
def seqOption {α : Type} : List (Option α) → Option (List α)
  | [] => some []
  | none :: _ => none
  | some x :: rest => (seqOption rest).map (fun xs => x :: xs)

lemma analyze_batch_eq_seq (env : Env) (texts : List String) (s : ServiceState) :
    (analyze_batch env texts s).1 =
      seqOption (texts.map (fun t => (analyze_text env t s).1)) := by
  induction texts generalizing s with
  | nil => rfl
  | cons t ts ih =>
    simp only [analyze_batch, List.map_cons]
    rcases h : analyze_text env t s with ⟨r?, s'⟩
    have hst : (analyze_text env t s).2 = s' := by rw [h]
    have hfun : (fun t' => (analyze_text env t' s').1)
        = (fun t' => (analyze_text env t' s).1) := by
      funext t'
      rw [← hst]
      exact analyze_out_stable env t t' s
    have hmap : ts.map (fun t' => (analyze_text env t' s').1)
        = ts.map (fun t' => (analyze_text env t' s).1) := by rw [hfun]
    rcases r? with _ | r
    · simp [seqOption]
    · simp only [seqOption]
      rcases hb : analyze_batch env ts s' with ⟨rs?, s''⟩
      have hseq : rs? = seqOption (ts.map (fun t' => (analyze_text env t' s).1)) := by
        rw [← hmap, ← ih s', hb]
      rw [← hseq]
      rcases rs? with _ | rs <;> rfl

lemma seqOption_some {α : Type} :
    ∀ (l : List (Option α)) (xs : List α), seqOption l = some xs → l = xs.map some := by
  intro l
  induction l with
  | nil =>
    intro xs h
    simp only [seqOption, Option.some.injEq] at h
    rw [← h]
    rfl
  | cons o rest ih =>
    intro xs h
    rcases o with _ | x
    · simp [seqOption] at h
    · simp only [seqOption] at h
      rcases Option.map_eq_some'.mp h with ⟨ys, hys, hcons⟩
      rw [← hcons, List.map_cons, ← ih ys hys]

/-! ### Well-formedness propagation -/

lemma get_pipeline_wf (env : Env) (s : ServiceState) (he : EnvWF env) (hs : StateWF s)
    {p : Pipe} (h : (get_pipeline env.load s).1 = some p) : PipeWF p := by
  unfold get_pipeline at h
  split_ifs at h with h1 h2
  · exact hs p h
  · rcases hl : env.load with _ | q
    · rw [hl] at h
      simp at h
    · rw [hl] at h
      have hqp : q = p := by simpa using h
      rw [← hqp]
      exact he.2 q hl

lemma get_pipeline_state_wf (env : Env) (s : ServiceState) (he : EnvWF env)
    (hs : StateWF s) : StateWF (get_pipeline env.load s).2 := by
  unfold get_pipeline
  split_ifs with h1 h2
  · exact hs
  · exact hs
  · rcases hl : env.load with _ | q
    · intro p hp
      exact hs p hp
    · intro p hp
      have hqp : q = p := Option.some.inj hp
      rw [← hqp]
      exact he.2 q hl

lemma analyze_state_wf (env : Env) (t : String) (s : ServiceState) (he : EnvWF env)
    (hs : StateWF s) : StateWF (analyze_text env t s).2 := by
  by_cases h : pyStrip t = ""
  · simp only [analyze_text, if_pos h]
    exact hs
  · rw [analyze_state env t s h]
    exact get_pipeline_state_wf env s he hs

/-! ### Dict and argmax lemmas -/

lemma dictInsert_snd_sub (k : String) (v : ℚ) (d : List (String × ℚ)) :
    ∀ q ∈ (dictInsert k v d).map Prod.snd, q = v ∨ q ∈ d.map Prod.snd := by
  intro q hq
  unfold dictInsert at hq
  split_ifs at hq with h
  · rcases List.mem_map.mp hq with ⟨r, hr, hre⟩
    rcases List.mem_map.mp hr with ⟨p, hp, hpe⟩
    by_cases hpk : p.1 = k
    · left
      rw [← hre, ← hpe, if_pos hpk]
    · right
      rw [← hre, ← hpe, if_neg hpk]
      exact List.mem_map_of_mem Prod.snd hp
  · rcases List.mem_map.mp hq with ⟨r, hr, hre⟩
    rcases List.mem_append.mp hr with hrd | hrk
    · right
      rw [← hre]
      exact List.mem_map_of_mem Prod.snd hrd
    · left
      have : r = (k, v) := by simpa using hrk
      rw [← hre, this]

lemma foldl_dict_snd : ∀ (rs : List (String × ℚ)) (acc : List (String × ℚ))
    (r : String × ℚ),
    r ∈ rs.foldl (fun d x => dictInsert (pyLower x.1) x.2 d) acc →
    r.2 ∈ acc.map Prod.snd ∨ ∃ x ∈ rs, r.2 = x.2 := by
  intro rs
  induction rs with
  | nil =>
    intro acc r h
    left
    exact List.mem_map_of_mem Prod.snd h
  | cons y ys ih =>
    intro acc r h
    simp only [List.foldl_cons] at h
    rcases ih _ r h with hacc | ⟨x, hx, hxe⟩
    · rcases dictInsert_snd_sub _ _ _ _ hacc with hv | hmem
      · right
        exact ⟨y, List.mem_cons_self y ys, hv⟩
      · left
        exact hmem
    · right
      exact ⟨x, List.mem_cons_of_mem y hx, hxe⟩

lemma buildByLabel_snd (rs : List (String × ℚ)) (r : String × ℚ)
    (h : r ∈ buildByLabel rs) : ∃ x ∈ rs, r.2 = x.2 := by
  rcases foldl_dict_snd rs [] r h with habs | hok
  · simp at habs
  · exact hok

lemma dictInsert_ne_nil (k : String) (v : ℚ) (d : List (String × ℚ)) :
    dictInsert k v d ≠ [] := by
  unfold dictInsert
  split_ifs with h
  · rcases d with _ | ⟨a, as⟩
    · simp at h
    · simp
  · simp

lemma foldl_dict_ne_nil : ∀ (ys : List (String × ℚ)) (acc : List (String × ℚ)),
    acc ≠ [] → ys.foldl (fun d x => dictInsert (pyLower x.1) x.2 d) acc ≠ [] := by
  intro ys
  induction ys with
  | nil => intro acc h; exact h
  | cons y ys ih =>
    intro acc _
    simp only [List.foldl_cons]
    exact ih _ (dictInsert_ne_nil _ _ _)

lemma buildByLabel_ne_nil {rs : List (String × ℚ)} (h : rs ≠ []) :
    buildByLabel rs ≠ [] := by
  rcases rs with _ | ⟨y, ys⟩
  · exact absurd rfl h
  · unfold buildByLabel
    simp only [List.foldl_cons]
    exact foldl_dict_ne_nil ys _ (dictInsert_ne_nil _ _ _)

lemma argmax_fold_mem : ∀ (d : List (String × ℚ)) (acc : Option (String × ℚ))
    (p : String × ℚ),
    d.foldl (fun acc q => match acc with
      | none => some q
      | some r => if r.2 < q.2 then some q else some r) acc = some p →
    p ∈ d ∨ acc = some p := by
  intro d
  induction d with
  | nil => intro acc p h; right; exact h
  | cons x xs ih =>
    intro acc p h
    simp only [List.foldl_cons] at h
    rcases ih _ p h with hmem | hacc
    · left
      exact List.mem_cons_of_mem x hmem
    · rcases acc with _ | r
      · left
        have : x = p := Option.some.inj hacc
        rw [← this]
        exact List.mem_cons_self x xs
      · simp only at hacc
        split_ifs at hacc with hlt
        · left
          have : x = p := Option.some.inj hacc
          rw [← this]
          exact List.mem_cons_self x xs
        · right
          exact hacc

lemma argmaxFirst_mem {d : List (String × ℚ)} {p : String × ℚ}
    (h : argmaxFirst d = some p) : p ∈ d := by
  rcases argmax_fold_mem d none p h with hmem | habs
  · exact hmem
  · simp at habs

lemma argmax_fold_isSome : ∀ (d : List (String × ℚ)) (acc : Option (String × ℚ)),
    acc.isSome →
    (d.foldl (fun acc q => match acc with
      | none => some q
      | some r => if r.2 < q.2 then some q else some r) acc).isSome := by
  intro d
  induction d with
  | nil => intro acc h; exact h
  | cons x xs ih =>
    intro acc _
    simp only [List.foldl_cons]
    apply ih
    rcases acc with _ | r
    · rfl
    · simp only
      split_ifs <;> rfl

lemma argmaxFirst_isSome {d : List (String × ℚ)} (h : d ≠ []) :
    (argmaxFirst d).isSome := by
  rcases d with _ | ⟨x, xs⟩
  · exact absurd rfl h
  · unfold argmaxFirst
    simp only [List.foldl_cons]
    exact argmax_fold_isSome xs _ rfl

/-! ### The core specification of `analyze_text` -/

lemma analyze_text_spec (env : Env) (s : ServiceState) (he : EnvWF env) (hs : StateWF s)
    (text : String) :
    ∃ l c, (analyze_text env text s).1 = some (l, c) ∧
      l ∈ (["positive", "neutral", "negative"] : List String) ∧ 0 ≤ c ∧ c ≤ 1 := by
  by_cases h : pyStrip text = ""
  · exact ⟨"neutral", 0, by simp [analyze_text, h], by simp, le_refl 0, by norm_num⟩
  · rcases hm : (get_pipeline env.load s).1 with _ | pipe
    · refine ⟨(analyze_vader env.compoundOf text).1, (analyze_vader env.compoundOf text).2,
        by simp only [analyze_text, if_neg h, hm], ?_, ?_, ?_⟩
      · exact vader_label_mem _
      · exact (vader_conf_bounds _).1
      · exact (vader_conf_bounds _).2
    · have hwf : PipeWF pipe := get_pipeline_wf env s he hs hm
      have hne : pipe (pyTake 512 (pyStrip text)) ≠ [] := (hwf _).1
      have hbb := buildByLabel_ne_nil hne
      have hsome := argmaxFirst_isSome hbb
      rcases ha : argmaxFirst (buildByLabel (pipe (pyTake 512 (pyStrip text)))) with _ | lr
      · rw [ha] at hsome
        simp at hsome
      · have hmem := argmaxFirst_mem ha
        rcases buildByLabel_snd _ _ hmem with ⟨x, hx, hxe⟩
        have hb := (hwf (pyTake 512 (pyStrip text))).2 x hx
        refine ⟨normalize_label lr.1, round4 lr.2,
          by simp only [analyze_text, if_neg h, hm, ha], normalize_label_mem _, ?_, ?_⟩
        · exact round4_nonneg (by rw [hxe]; exact hb.1)
        · exact round4_le_one (by rw [hxe]; exact hb.2)

lemma analyze_batch_cons_some (env : Env) (t : String) (ts : List String)
    (s : ServiceState) (r : String × ℚ) (s' : ServiceState)
    (h : analyze_text env t s = (some r, s')) :
    (analyze_batch env (t :: ts) s).1 =
      ((analyze_batch env ts s').1).map (fun rs => r :: rs) := by
  simp only [analyze_batch, h]
  rcases analyze_batch env ts s' with ⟨rs?, s''⟩
  rcases rs? with _ | rs <;> rfl

lemma analyze_batch_some (env : Env) (he : EnvWF env) :
    ∀ (texts : List String) (s : ServiceState), StateWF s →
    ∃ rs, (analyze_batch env texts s).1 = some rs := by
  intro texts
  induction texts with
  | nil => intro s _; exact ⟨[], rfl⟩
  | cons t ts ih =>
    intro s hs
    rcases analyze_text_spec env s he hs t with ⟨l, c, hout, -, -, -⟩
    rcases h : analyze_text env t s with ⟨r?, s'⟩
    have hr : r? = some (l, c) := by rw [h] at hout; exact hout
    have hs' : StateWF s' := by
      have := analyze_state_wf env t s he hs
      rw [h] at this
      exact this
    rw [hr] at h
    rcases ih s' hs' with ⟨rs, hrs⟩
    refine ⟨(l, c) :: rs, ?_⟩
    rw [analyze_batch_cons_some env t ts s (l, c) s' h, hrs]
    rfl

/-! ### Concrete evaluation helpers -/

/-- A concrete model-backed environment used by witnesses. -/
def envM : Env := ⟨some (fun _ => [("positive", 9 / 10)]), fun _ => 1⟩

lemma get_pipeline_env0_init : get_pipeline env0.load initState = (none, ⟨none, some true⟩) := by
  simp [get_pipeline, env0, initState]

lemma analyze_text_env0_nonempty (t : String) (h : pyStrip t ≠ "") :
    analyze_text env0 t initState = (some ("neutral", 1), ⟨none, some true⟩) := by
  simp only [analyze_text, if_neg h, get_pipeline_env0_init]
  simp only [analyze_vader, env0]
  rw [vader_at_zero]

lemma analyze_batch_env0_single : (analyze_batch env0 ["a"] initState).1
    = some [("neutral", 1)] := by
  simp only [analyze_batch, analyze_text_env0_nonempty "a" (by decide)]

/-! ### Claim theorems: sentiment module -/

/-- C1: for every text, `analyze_text` returns a (label, confidence) pair
with the label in {positive, neutral, negative} and the confidence in
[0, 1], given the contracts of the external scorers. -/
theorem C1_analyze_text_label_and_confidence (env : Env) (s : ServiceState)
    (he : EnvWF env) (hs : StateWF s) (text : String) :
    ∃ l c, (analyze_text env text s).1 = some (l, c) ∧
      l ∈ (["positive", "neutral", "negative"] : List String) ∧ 0 ≤ c ∧ c ≤ 1 :=
  analyze_text_spec env s he hs text

theorem C1_witness :
    ∃ l c, (analyze_text env0 "good" initState).1 = some (l, c) ∧
      l ∈ (["positive", "neutral", "negative"] : List String) ∧ 0 ≤ c ∧ c ≤ 1 :=
  C1_analyze_text_label_and_confidence env0 initState env0_wf initState_wf "good"

/-- C2: empty or whitespace-only text short-circuits to (neutral, 0.0),
leaves the analyzer-selection state unchanged, and does not depend on
either analyzer (the result is the same in every environment). -/
theorem C2_empty_text_short_circuit (env env' : Env) (s : ServiceState) (text : String)
    (h : pyStrip text = "") :
    analyze_text env text s = (some ("neutral", 0), s) ∧
      analyze_text env text s = analyze_text env' text s := by
  constructor <;> simp [analyze_text, h]

theorem C2_witness :
    analyze_text env0 "   " initState = (some ("neutral", 0), initState) ∧
      analyze_text env0 "   " initState = analyze_text envM "   " initState :=
  C2_empty_text_short_circuit env0 envM initState "   " (by decide)

/-- C3: the lexicon fallback maps the compound score by the fixed
thresholds of `_analyze_vader`: ≥ 0.05 is positive, ≤ -0.05 is negative,
otherwise neutral, with the stated rounded confidences; in particular
0.05 is positive, -0.05 is negative, and 0 gives (neutral, 1.0). -/
theorem C3_vader_thresholds_spec (c : ℚ) (h1 : -1 ≤ c) (h2 : c ≤ 1) :
    (5 / 100 ≤ c → vader_thresholds c = ("positive", round4 (min 1 (1 / 2 + c / 2)))) ∧
    (c ≤ -(5 / 100) → vader_thresholds c = ("negative", round4 (min 1 (1 / 2 + |c| / 2)))) ∧
    (-(5 / 100) < c → c < 5 / 100 →
      vader_thresholds c = ("neutral", round4 (1 / 2 + (1 / 2 - |c|)))) ∧
    (vader_thresholds (5 / 100)).1 = "positive" ∧
    (vader_thresholds (-(5 / 100))).1 = "negative" ∧
    vader_thresholds 0 = ("neutral", 1) ∧
    ∀ (compoundOf : String → ℚ) (text : String),
      analyze_vader compoundOf text = vader_thresholds (compoundOf (pyTake 512 (pyStrip text))) := by
  refine ⟨?_, ?_, ?_, ?_, ?_, ?_, fun _ _ => rfl⟩
  · intro hc
    unfold vader_thresholds
    rw [if_pos hc]
  · intro hc
    unfold vader_thresholds
    rw [if_neg (by linarith), if_pos hc]
  · intro ha hb
    unfold vader_thresholds
    rw [if_neg (by linarith), if_neg (by linarith)]
  · rw [vader_at_pos_threshold]
  · rw [vader_at_neg_threshold]
  · exact vader_at_zero

theorem C3_witness : vader_thresholds 0 = ("neutral", 1) :=
  (C3_vader_thresholds_spec 0 (by norm_num) (by norm_num)).2.2.2.2.2.1

/-- C4: `analyze_batch` is the element-wise application of
`analyze_text`: its result sequences the per-element results from the
starting state, and a successful batch has the input's length with its
i-th element equal to the single-text analysis of the i-th input (order
preserved, no cross-element interaction). -/
theorem C4_analyze_batch_elementwise (env : Env) (texts : List String) (s : ServiceState) :
    (analyze_batch env texts s).1 =
      seqOption (texts.map (fun t => (analyze_text env t s).1)) ∧
    ∀ rs, (analyze_batch env texts s).1 = some rs →
      rs.length = texts.length ∧
      ∀ i, rs.get? i = (texts.get? i).bind (fun t => (analyze_text env t s).1) := by
  constructor
  · exact analyze_batch_eq_seq env texts s
  · intro rs h
    rw [analyze_batch_eq_seq env texts s] at h
    have hmap := seqOption_some _ rs h
    constructor
    · have hlen := congrArg List.length hmap
      simpa using hlen.symm
    · intro i
      have hg := congrArg (fun l => l.get? i) hmap
      simp only [List.get?_map] at hg
      cases ht : texts.get? i with
      | none =>
        rw [ht] at hg
        cases hrr : rs.get? i with
        | none => simp
        | some r =>
          rw [hrr] at hg
          simp at hg
      | some t =>
        rw [ht] at hg
        cases hrr : rs.get? i with
        | none =>
          rw [hrr] at hg
          simp at hg
        | some r =>
          rw [hrr] at hg
          simp only [Option.map_some'] at hg
          have : (analyze_text env t s).1 = some r := Option.some.inj hg
          simpa using this.symm

theorem C4_witness :
    [("neutral", (1 : ℚ))].length = (["a"] : List String).length ∧
    ∀ i, [("neutral", (1 : ℚ))].get? i =
      ((["a"] : List String).get? i).bind (fun t => (analyze_text env0 t initState).1) :=
  (C4_analyze_batch_elementwise env0 ["a"] initState).2 [("neutral", 1)] analyze_batch_env0_single

/-- C8: the analyzer selection starts unresolved, resolves on the first
request (to the loaded pipeline on success, to the lexicon on failure),
returns the same backend on every later call whatever a retry would
yield, and is triggered by the first non-empty analysis request. -/
theorem C8_selection_state_machine (load : Option Pipe) :
    (get_pipeline load initState).1 = load ∧
    (get_pipeline load initState).2 =
      (match load with
       | some p => ⟨some p, some false⟩
       | none => ⟨none, some true⟩) ∧
    (∀ load', get_pipeline load' ((get_pipeline load initState).2) =
      ((get_pipeline load initState).1, (get_pipeline load initState).2)) ∧
    ∀ (env : Env) (t : String), env.load = load → pyStrip t ≠ "" →
      (analyze_text env t initState).2 = (get_pipeline load initState).2 := by
  rcases load with _ | p
  · refine ⟨?_, ?_, ?_, ?_⟩
    · simp [get_pipeline, initState]
    · simp [get_pipeline, initState]
    · intro load'
      simp [get_pipeline, initState]
    · intro env t he hne
      rw [analyze_state env t initState hne, he]
  · refine ⟨?_, ?_, ?_, ?_⟩
    · simp [get_pipeline, initState]
    · simp [get_pipeline, initState]
    · intro load'
      simp [get_pipeline, initState]
    · intro env t he hne
      rw [analyze_state env t initState hne, he]

theorem C8_witness :
    (get_pipeline none initState).1 = none ∧
    (analyze_text env0 "x" initState).2 = (get_pipeline none initState).2 :=
  ⟨(C8_selection_state_machine none).1,
    (C8_selection_state_machine none).2.2.2 env0 "x" rfl (by decide)⟩

/-- C9: the label normalizer is total and case-insensitive: lowered
"positive"/"pos" map to positive, lowered "negative"/"neg" map to
negative, everything else maps to neutral, and the result is always in
{positive, neutral, negative}. -/
theorem C9_normalize_label_total (l : String) :
    normalize_label l ∈ (["positive", "neutral", "negative"] : List String) ∧
    ((pyLower l = "positive" ∨ pyLower l = "pos") → normalize_label l = "positive") ∧
    ((pyLower l = "negative" ∨ pyLower l = "neg") → normalize_label l = "negative") ∧
    (pyLower l ≠ "positive" → pyLower l ≠ "pos" → pyLower l ≠ "negative" →
      pyLower l ≠ "neg" → normalize_label l = "neutral") := by
  refine ⟨normalize_label_mem l, ?_, ?_, ?_⟩
  · rintro (h | h) <;> simp [normalize_label, h]
  · rintro (h | h) <;> simp [normalize_label, h]
  · intro h1 h2 h3 h4
    simp [normalize_label, h1, h2, h3, h4]

theorem C9_witness : normalize_label "NEG" = "negative" :=
  (C9_normalize_label_total "NEG").2.2.1 (Or.inr (by decide))

/-- C10 fails as stated: at compound 0.049995 (strictly inside
(-0.05, 0.05), on the non-empty text "x") the lexicon analyzer reports
confidence exactly 0.95, which is not strictly greater than 0.95 and
not at least 0.9501. -/
theorem C10_counterexample :
    analyze_vader (fun _ => (9999 / 200000 : ℚ)) "x" = ("neutral", 19 / 20) ∧
    ¬((19 / 20 : ℚ) > 19 / 20) ∧ ¬((19 / 20 : ℚ) ≥ 9501 / 10000) ∧
    (-(5 / 100) : ℚ) < 9999 / 200000 ∧ (9999 / 200000 : ℚ) < 5 / 100 ∧
    pyStrip "x" ≠ "" := by
  refine ⟨?_, by norm_num, by norm_num, by norm_num, by norm_num, by decide⟩
  unfold analyze_vader
  exact vader_at_c10

/-- C10 amended: for a compound score strictly inside (-0.05, 0.05) the
lexicon verdict is neutral with confidence at least 0.95 (and at most
1), strictly above 0.525, which is the confidence at the positive and
negative thresholds and a lower bound for every positive or negative
verdict. -/
theorem C10_neutral_confidence_amended (c : ℚ) (h1 : -(5 / 100) < c) (h2 : c < 5 / 100) :
    (vader_thresholds c).1 = "neutral" ∧
    19 / 20 ≤ (vader_thresholds c).2 ∧ (vader_thresholds c).2 ≤ 1 ∧
    21 / 40 < (vader_thresholds c).2 ∧
    (vader_thresholds (5 / 100)).2 = 21 / 40 ∧
    (vader_thresholds (-(5 / 100))).2 = 21 / 40 ∧
    (∀ c', 5 / 100 ≤ c' → 21 / 40 ≤ (vader_thresholds c').2) ∧
    (∀ c', c' ≤ -(5 / 100) → 21 / 40 ≤ (vader_thresholds c').2) := by
  have habs : |c| < 5 / 100 := abs_lt.mpr ⟨by linarith, by linarith⟩
  have habs0 : 0 ≤ |c| := abs_nonneg c
  have hval : vader_thresholds c = ("neutral", round4 (1 / 2 + (1 / 2 - |c|))) := by
    unfold vader_thresholds
    rw [if_neg (by linarith), if_neg (by linarith)]
  have hconf : 19 / 20 ≤ (vader_thresholds c).2 := by
    rw [hval]
    have := round4_ge 9500 (1 / 2 + (1 / 2 - |c|)) (by push_cast; linarith)
    have h95 : ((9500 : ℤ) : ℚ) / 10000 = 19 / 20 := by norm_num
    rw [h95] at this
    exact this
  refine ⟨by rw [hval], hconf, ?_, by linarith, ?_, ?_, ?_, ?_⟩
  · rw [hval]
    exact round4_le_one (by linarith)
  · rw [vader_at_pos_threshold]
  · rw [vader_at_neg_threshold]
  · intro c' hc
    unfold vader_thresholds
    rw [if_pos hc]
    have := round4_ge 5250 (min 1 (1 / 2 + c' / 2))
      (le_min (by push_cast; norm_num) (by push_cast; linarith))
    have h525 : ((5250 : ℤ) : ℚ) / 10000 = 21 / 40 := by norm_num
    rw [h525] at this
    exact this
  · intro c' hc
    have habsc : -c' ≤ |c'| := neg_le_abs c'
    unfold vader_thresholds
    rw [if_neg (by linarith), if_pos hc]
    have := round4_ge 5250 (min 1 (1 / 2 + |c'| / 2))
      (le_min (by push_cast; norm_num) (by push_cast; linarith))
    have h525 : ((5250 : ℤ) : ℚ) / 10000 = 21 / 40 := by norm_num
    rw [h525] at this
    exact this

theorem C10_witness :
    (vader_thresholds 0).1 = "neutral" ∧ 19 / 20 ≤ (vader_thresholds 0).2 :=
  ⟨(C10_neutral_confidence_amended 0 (by norm_num) (by norm_num)).1,
    (C10_neutral_confidence_amended 0 (by norm_num) (by norm_num)).2.1⟩

/-! ### Column-detection lemmas -/

lemma zip_find_name (q : String → Bool) (f : String → String) :
    ∀ (cols : List Column),
    (((cols.map (fun c => c.name)).zip ((cols.map (fun c => c.name)).map f)).find?
        (fun nc => q nc.2)).map (fun nc => nc.1)
    = (cols.find? (fun col => q (f col.name))).map (fun c => c.name) := by
  intro cols
  induction cols with
  | nil => rfl
  | cons c cs ih =>
    simp only [List.map_cons, List.zip_cons_cons]
    cases hq : q (f c.name) with
    | false =>
      simp only [List.find?, hq]
      exact ih
    | true =>
      simp only [List.find?, hq]
      rfl

lemma findSome?_map_comm {α β γ : Type} (f : β → γ) (h : α → Option β) :
    ∀ (l : List α), l.findSome? (fun a => (h a).map f) = (l.findSome? h).map f := by
  intro l
  induction l with
  | nil => rfl
  | cons a as ih =>
    simp only [List.findSome?_cons]
    cases hh : h a
    · simpa [hh] using ih
    · simp [hh]

/-- C5 (amended): `detect_text_column` agrees with the claim's
description once the matching is read over lowercased *and stripped*
column names: first candidate in list order against columns in original
order, then the single-column fallback, then the first object-typed
column with median stringified length above 20, else none. -/
theorem C5_detect_text_column_amended (df : DataFrame) :
    detect_text_column df = detect_text_column_spec df := by
  unfold detect_text_column detect_text_column_spec
  have hcand : (fun cand =>
        (((df.columns.map (fun c => c.name)).zip
            ((df.columns.map (fun c => c.name)).map (fun c => pyStrip (pyLower c)))).find?
          (fun nc => substr cand nc.2 || substr nc.2 cand)).map (fun nc => nc.1))
      = (fun cand => ((df.columns.find? (fun col =>
          substr cand (pyStrip (pyLower col.name)) ||
            substr (pyStrip (pyLower col.name)) cand)).map (fun c => c.name))) := by
    funext cand
    exact zip_find_name (fun x => substr cand x || substr x cand)
      (fun n => pyStrip (pyLower n)) df.columns
  rw [hcand, findSome?_map_comm]
  cases hfs : TEXT_CANDIDATES.findSome? (fun cand =>
      df.columns.find? (fun col =>
        substr cand (pyStrip (pyLower col.name)) ||
          substr (pyStrip (pyLower col.name)) cand)) with
  | some col => rfl
  | none =>
    simp only [Option.map_none']
    simp [List.length_map, List.head?_map]

/-- C5 fails as stated: with columns named "ab" and " ext" (note the
leading space) the code strips the name and matches " ext" against the
candidate "text", while the claim's unstripped matching finds no column
at all. -/
def dfC5 : DataFrame := ⟨[⟨"ab", false, []⟩, ⟨" ext", false, []⟩]⟩

theorem C5_counterexample :
    detect_text_column dfC5 = some " ext" ∧ detect_text_column_claim dfC5 = none := by
  constructor <;> decide

theorem C5_example_review_text :
    detect_text_column ⟨[⟨"id", false, []⟩, ⟨"review_text", true, []⟩,
      ⟨"rating", false, []⟩]⟩ = some "review_text" := by
  decide

/-! ### `run_sentiment_on_df` lemmas -/

lemma set_column_append (df : DataFrame) (c : Column)
    (h : ∀ col ∈ df.columns, col.name ≠ c.name) :
    set_column df c = ⟨df.columns ++ [c]⟩ := by
  unfold set_column
  have hany : df.columns.any (fun col => col.name = c.name) = false := by
    rw [List.any_eq_false]
    intro x hx
    simpa using h x hx
  rw [if_neg (by simp [hany])]

/-- C6 (amended): when the input has no column already named `sentiment`
or `sentiment_confidence`, a successful `run_sentiment_on_df` returns
the original columns unchanged, in order, with exactly the two result
columns appended (the input dataframe itself is never modified: the
transform is a pure function of it). -/
theorem C6_new_columns_amended (env : Env) (df : DataFrame) (tc : String)
    (s : ServiceState) (out : DataFrame)
    (hclean : ∀ c ∈ df.columns, c.name ≠ "sentiment" ∧ c.name ≠ "sentiment_confidence")
    (hrun : (run_sentiment_on_df env df tc s).1 = some out) :
    ∃ c1 c2, c1.name = "sentiment" ∧ c2.name = "sentiment_confidence" ∧
      out.columns = df.columns ++ [c1, c2] := by
  cases hf : df.columns.find? (fun col => col.name = tc) with
  | none =>
    simp only [run_sentiment_on_df, hf] at hrun
    simp at hrun
  | some col =>
    simp only [run_sentiment_on_df, hf] at hrun
    cases hb : analyze_batch env (col.cells.map cellFillEmpty) s with
    | mk rs? s' =>
      rw [hb] at hrun
      cases rs? with
      | none => simp at hrun
      | some results =>
        have hout := Option.some.inj (hrun :
          some (set_column
            (set_column df ⟨"sentiment", true, results.map (fun r => Cell.str r.1)⟩)
            ⟨"sentiment_confidence", false, results.map (fun r => Cell.num r.2)⟩) = some out)
        have hsc1 : set_column df ⟨"sentiment", true, results.map (fun r => Cell.str r.1)⟩
            = ⟨df.columns ++ [⟨"sentiment", true, results.map (fun r => Cell.str r.1)⟩]⟩ :=
          set_column_append df _ (fun c hc => (hclean c hc).1)
        have hsc2 : set_column
            (⟨df.columns ++ [⟨"sentiment", true, results.map (fun r => Cell.str r.1)⟩]⟩ :
              DataFrame)
            ⟨"sentiment_confidence", false, results.map (fun r => Cell.num r.2)⟩
            = ⟨(df.columns ++ [⟨"sentiment", true, results.map (fun r => Cell.str r.1)⟩])
                ++ [⟨"sentiment_confidence", false, results.map (fun r => Cell.num r.2)⟩]⟩ := by
          apply set_column_append
          intro c hc
          rcases List.mem_append.mp hc with hcl | hcr
          · exact (hclean c hcl).2
          · have : c = ⟨"sentiment", true, results.map (fun r => Cell.str r.1)⟩ := by
              simpa using hcr
            rw [this]
            simp
        refine ⟨⟨"sentiment", true, results.map (fun r => Cell.str r.1)⟩,
          ⟨"sentiment_confidence", false, results.map (fun r => Cell.num r.2)⟩, rfl, rfl, ?_⟩
        rw [← hout, hsc1, hsc2]
        simp

/-- Input with a pre-existing `sentiment` column for the C6
counterexample. -/
def dfC6 : DataFrame := ⟨[⟨"text", true, [Cell.str "good"]⟩, ⟨"sentiment", true, [Cell.str "x"]⟩]⟩

/-- What `run_sentiment_on_df` actually produces on `dfC6`: the existing
`sentiment` column is overwritten in place, not appended. -/
def outC6 : DataFrame := ⟨[⟨"text", true, [Cell.str "good"]⟩,
  ⟨"sentiment", true, [Cell.str "neutral"]⟩,
  ⟨"sentiment_confidence", false, [Cell.num 1]⟩]⟩

lemma analyze_batch_env0_good : analyze_batch env0 ["good"] initState
    = (some [("neutral", 1)], ⟨none, some true⟩) := by
  simp only [analyze_batch, analyze_text_env0_nonempty "good" (by decide)]

lemma run_eval_dfC6 : run_sentiment_on_df env0 dfC6 "text" initState
    = (some outC6, ⟨none, some true⟩) := by
  simp only [run_sentiment_on_df,
    show dfC6.columns.find? (fun col => col.name = "text")
      = some (⟨"text", true, [Cell.str "good"]⟩ : Column) from rfl]
  simp only [List.map_cons, List.map_nil, cellFillEmpty]
  rw [analyze_batch_env0_good]
  rfl

/-- C6 fails as stated: on an input that already has a `sentiment`
column, the code overwrites that column in place, so the output is not
the original columns plus two appended ones (it has one column too
few, and the original `sentiment` values are gone). -/
theorem C6_counterexample :
    (run_sentiment_on_df env0 dfC6 "text" initState).1 = some outC6 ∧
    outC6.columns.length ≠ dfC6.columns.length + 2 ∧
    ¬ ∃ out, (run_sentiment_on_df env0 dfC6 "text" initState).1 = some out ∧
      ∃ c1 c2, c1.name = "sentiment" ∧ c2.name = "sentiment_confidence" ∧
        out.columns = dfC6.columns ++ [c1, c2] := by
  refine ⟨by rw [run_eval_dfC6], by decide, ?_⟩
  rintro ⟨out, hout, c1, c2, h1, h2, hcols⟩
  rw [run_eval_dfC6] at hout
  have hoe : outC6 = out := Option.some.inj hout
  rw [← hoe] at hcols
  have hlen := congrArg List.length hcols
  simp [outC6, dfC6] at hlen

/-- A clean single-column input for the C6 witness. -/
def dfW : DataFrame := ⟨[⟨"text", true, [Cell.str "ok"]⟩]⟩

/-- The output on `dfW`: both result columns are appended. -/
def outW : DataFrame := ⟨[⟨"text", true, [Cell.str "ok"]⟩,
  ⟨"sentiment", true, [Cell.str "neutral"]⟩,
  ⟨"sentiment_confidence", false, [Cell.num 1]⟩]⟩

lemma analyze_batch_env0_ok : analyze_batch env0 ["ok"] initState
    = (some [("neutral", 1)], ⟨none, some true⟩) := by
  simp only [analyze_batch, analyze_text_env0_nonempty "ok" (by decide)]

lemma run_eval_dfW : (run_sentiment_on_df env0 dfW "text" initState).1 = some outW := by
  simp only [run_sentiment_on_df,
    show dfW.columns.find? (fun col => col.name = "text")
      = some (⟨"text", true, [Cell.str "ok"]⟩ : Column) from rfl]
  simp only [List.map_cons, List.map_nil, cellFillEmpty]
  rw [analyze_batch_env0_ok]
  rfl

theorem C6_witness :
    ∃ c1 c2, c1.name = "sentiment" ∧ c2.name = "sentiment_confidence" ∧
      outW.columns = dfW.columns ++ [c1, c2] :=
  C6_new_columns_amended env0 dfW "text" initState outW (by decide) run_eval_dfW

/-- C7: missing values in the chosen text column are analyzed as the
empty string, so every missing row gets (neutral, 0.0); under the
external scorers' contracts the per-row analysis never fails, so the
whole transform succeeds. -/
theorem C7_missing_values_neutral (env : Env) (s : ServiceState) (he : EnvWF env)
    (hs : StateWF s) (df : DataFrame) (tc : String) (col : Column)
    (hfind : df.columns.find? (fun c => c.name = tc) = some col) :
    ∃ rs, (analyze_batch env (col.cells.map cellFillEmpty) s).1 = some rs ∧
      (run_sentiment_on_df env df tc s).1.isSome ∧
      ∀ i, col.cells.get? i = some Cell.na → rs.get? i = some ("neutral", 0) := by
  rcases analyze_batch_some env he (col.cells.map cellFillEmpty) s hs with ⟨rs, hrs⟩
  refine ⟨rs, hrs, ?_, ?_⟩
  · simp only [run_sentiment_on_df, hfind]
    cases hb : analyze_batch env (col.cells.map cellFillEmpty) s with
    | mk rs? s' =>
      have hrss : rs? = some rs := by rw [hb] at hrs; exact hrs
      rw [hrss]
      rfl
  · intro i hna
    have hseq := analyze_batch_eq_seq env (col.cells.map cellFillEmpty) s
    have hsek : seqOption ((col.cells.map cellFillEmpty).map
        (fun t => (analyze_text env t s).1)) = some rs := by
      rw [← hseq]
      exact hrs
    have hmap := seqOption_some _ rs hsek
    have hg := congrArg (fun l => l.get? i) hmap
    simp only [List.get?_map] at hg
    rw [hna] at hg
    have hempty : (analyze_text env "" s).1 = some ("neutral", 0) := by
      simp [analyze_text, show pyStrip "" = "" from rfl]
    cases hrr : rs.get? i with
    | none =>
      rw [hrr] at hg
      simp at hg
    | some r =>
      rw [hrr] at hg
      simp only [Option.map_some', cellFillEmpty] at hg
      have : (analyze_text env "" s).1 = some r := Option.some.inj hg
      rw [hempty] at this
      exact this.symm

/-- A one-column dataframe whose only cell is missing, for the C7
witness. -/
def df7 : DataFrame := ⟨[⟨"t", true, [Cell.na]⟩]⟩

theorem C7_witness :
    ∃ rs, (analyze_batch env0 ([Cell.na].map cellFillEmpty) initState).1 = some rs ∧
      (run_sentiment_on_df env0 df7 "t" initState).1.isSome ∧
      ∀ i, [Cell.na].get? i = some Cell.na → rs.get? i = some ("neutral", 0) :=
  C7_missing_values_neutral env0 initState env0_wf initState_wf df7 "t"
    ⟨"t", true, [Cell.na]⟩ (by decide)
